import Mathlib

/-!
Verification of the Signal Quality Index (SQI) algorithm
(src/SignalQualityIndex.py) against its natural-language specification.

The Python source is shallowly embedded over the real numbers: every
numpy/scipy routine the code calls (`kaiserord`, `firwin`, `filtfilt`,
`detrend`, `correlate`, `std`, `log`, `sum`, `abs`) is translated into a
Lean definition on `List ℝ` following the library's documented formulas.
Floating-point rounding is idealised away (exact real arithmetic).
Calls that can raise a `ValueError` in scipy (`filtfilt`'s minimum-length
check, `firwin`'s cutoff validation) are modelled by `Option`, with `none`
standing for a raised exception.

IEEE-754 division by zero yields `inf`/`nan` in numpy while Lean's total
division yields `0`.  The embedding reproduces the IEEE outcomes wherever
they can change the program's result: the Stage-1 energy-ratio test and
the Stage-2 `1/std` test carry explicit guards (noted inline), and the
Stage-3 computation `log(std(oxy_f)/std(dxy_f)) * slope + intercept`
followed by the clamp is evaluated over `NpFloat`, an explicit model of
one IEEE double that tracks `nan` and the two infinities, because there
the special values reach the returned score (`log(inf) = inf` clamps to
`5`; `nan` passes both clamp comparisons and escapes unclamped).  One
deliberate simplification remains: `autocorrN` divides by the signal
energy with Lean's total division, so on a filtered signal that is
exactly the zero vector it returns zeros where numpy returns an all-`nan`
array (Stage 2 then falls through to Stage 3 in the program).  A signal
reaching Stage 2 has passed the Pass-A range and flat-line gates, and in
floating-point arithmetic its detrended, filtered samples never sum to an
exactly zero energy, so the corner is unreachable in the program; the
theorems that touch it carry an explicit non-degeneracy hypothesis.
-/

open Classical

namespace SignalQualityIndex

/-! ### numpy primitives on `List ℝ` -/

/-- Model of `np.mean` of a vector (sum divided by length). -/
noncomputable def npMean (x : List ℝ) : ℝ := x.sum / (x.length : ℝ)

/-- Model of `np.var` of a vector: mean of squared deviations from the mean
(population variance, numpy's default `ddof=0`). -/
noncomputable def npVar (x : List ℝ) : ℝ :=
  ((x.map (fun v => (v - npMean x) ^ 2)).sum) / (x.length : ℝ)

/-- Model of `np.std` of a vector: square root of `npVar`. -/
noncomputable def npStd (x : List ℝ) : ℝ := Real.sqrt (npVar x)

/-- Model of `np.sum(np.abs(x))`. -/
noncomputable def sumAbs (x : List ℝ) : ℝ := (x.map (fun v => |v|)).sum

/-- Model of `np.sum(x**2)`, the signal energy. -/
noncomputable def sumSq (x : List ℝ) : ℝ := (x.map (fun v => v ^ 2)).sum

/-- Full discrete convolution of two vectors (`np.convolve`):
output length `n + m - 1`, entry `k` is `Σ_{i+j=k} a i * v j`.
Out-of-range indices contribute `0` via `getD`. -/
noncomputable def convolve (a v : List ℝ) : List ℝ :=
  (List.range (a.length + v.length - 1)).map (fun n =>
    ((List.range (n + 1)).map (fun i => a.getD i 0 * v.getD (n - i) 0)).sum)

/-- Model of `scipy.signal.correlate(a, v, mode='full')` for real vectors, which
equals full convolution with the second argument reversed. -/
noncomputable def correlate (a v : List ℝ) : List ℝ := convolve a v.reverse

/-- Elementwise subtraction of two numpy arrays, `none` when the shapes
cannot be broadcast (numpy raises); 1-element arrays broadcast. -/
noncomputable def npSub (a b : List ℝ) : Option (List ℝ) :=
  if a.length = b.length then some (List.zipWith (fun u v => u - v) a b)
  else if a.length = 1 then some (b.map (fun v => a.getD 0 0 - v))
  else if b.length = 1 then some (a.map (fun v => v - b.getD 0 0))
  else none

/-- Model of `scipy.signal.detrend(x)` (default `type='linear'`): subtract the
least-squares best-fit line over sample index `i = 0, …, n-1`.  scipy
solves the same least-squares problem via `lstsq` on an affinely
equivalent design matrix, so the residual is identical; the closed-form
regression coefficients are used here. -/
noncomputable def detrend (x : List ℝ) : List ℝ :=
  let n := x.length
  let tbar := ((n : ℝ) - 1) / 2
  let xbar := x.sum / (n : ℝ)
  let stt := ((List.range n).map (fun (i : ℕ) => ((i : ℝ) - tbar) ^ 2)).sum
  let sxt := ((List.range n).map (fun (i : ℕ) => ((i : ℝ) - tbar) * (x.getD i 0 - xbar))).sum
  let bcoef := sxt / stt
  let acoef := xbar - bcoef * tbar
  (List.range n).map (fun (i : ℕ) => x.getD i 0 - (acoef + bcoef * (i : ℝ)))

/-! ### scipy.signal filter design -/

/-- Model of `scipy.signal.kaiser_beta(a)`: the Kaiser window shape parameter as a
piecewise function of the stopband attenuation `a` in dB. -/
noncomputable def kaiser_beta (a : ℝ) : ℝ :=
  if a > 50 then 0.1102 * (a - 8.7)
  else if a > 21 then 0.5842 * (a - 21) ^ (0.4 : ℝ) + 0.07886 * (a - 21)
  else 0

/-- The tap-count estimate of `scipy.signal.kaiserord(ripple, width)`:
`int(ceil((A - 7.95) / 2.285 / (pi * width) + 1))` with `A = abs(ripple)`. -/
noncomputable def kaiserordNumtaps (ripple width : ℝ) : ℤ :=
  ⌈(|ripple| - 7.95) / 2.285 / (Real.pi * width) + 1⌉

/-- Model of `scipy.signal.kaiserord`: estimated minimal tap count and Kaiser beta.
The beta component depends only on the ripple, not on the width. -/
noncomputable def kaiserord (ripple width : ℝ) : ℤ × ℝ :=
  (kaiserordNumtaps ripple width, kaiser_beta |ripple|)

/-- Model of `np.sinc` (normalised): `sin(pi x)/(pi x)`, with value `1` at `0`. -/
noncomputable def sinc (x : ℝ) : ℝ :=
  if x = 0 then 1 else Real.sin (Real.pi * x) / (Real.pi * x)

/-- The modified Bessel function `I0` as its power series
(`scipy.special.i0`). -/
noncomputable def besselI0 (x : ℝ) : ℝ :=
  tsum (fun k : ℕ => (x / 2) ^ (2 * k) / ((Nat.factorial k : ℝ)) ^ 2)

/-- Model of `scipy.signal.windows.kaiser(M, beta, sym=True)`: lengths `M ≤ 1`
return an all-ones window (scipy's small-length guard); otherwise the
usual `I0`-quotient formula. -/
noncomputable def kaiserWindow (M : ℕ) (beta : ℝ) : List ℝ :=
  if M ≤ 1 then List.replicate M 1
  else (List.range M).map (fun (i : ℕ) =>
    besselI0 (beta * Real.sqrt (1 - (2 * (i : ℝ) / ((M : ℝ) - 1) - 1) ^ 2)) / besselI0 beta)

/-- Model of `scipy.signal.firwin(numtaps, [l, r], window=('kaiser', beta),
pass_zero='bandpass')` with cutoffs `l < r` already normalised to the
Nyquist frequency: windowed ideal bandpass response, scaled so the gain
at the band centre is one. -/
noncomputable def firwin (numtaps : ℕ) (l r beta : ℝ) : List ℝ :=
  let alpha : ℝ := ((numtaps : ℝ) - 1) / 2
  let m : ℕ → ℝ := fun i => (i : ℝ) - alpha
  let hi : List ℝ := (List.range numtaps).map (fun i => r * sinc (r * m i) - l * sinc (l * m i))
  let win := kaiserWindow numtaps beta
  let hw := List.zipWith (fun u v => u * v) hi win
  let sf := 0.5 * (l + r)
  let s := ((List.range numtaps).map (fun i => hw.getD i 0 * Real.cos (Real.pi * m i * sf))).sum
  hw.map (fun v => v / s)

/-- Model of `scipy.signal.lfilter_zi(b, 1)`: initial filter state making the step
response start at its steady value; for an FIR numerator this is
`zi[i] = Σ_{j>i} b[j]`. -/
noncomputable def lfilter_zi (b : List ℝ) : List ℝ :=
  (List.range (b.length - 1)).map (fun i => (b.drop (i + 1)).sum)

/-- Model of `scipy.signal.lfilter(b, 1, x, zi)` for an FIR numerator `b` in
direct form II transposed: `y[n] = Σ_{k ≤ n} b[k]·x[n-k] + zi[n]`
(`zi` entries beyond its length read as `0`). -/
noncomputable def lfilter (b zi x : List ℝ) : List ℝ :=
  (List.range x.length).map (fun n =>
    ((List.range b.length).map (fun k => if k ≤ n then b.getD k 0 * x.getD (n - k) 0 else 0)).sum
      + zi.getD n 0)

/-- Model of `scipy.signal.filtfilt(b, 1, x)` with the default `padtype='odd'`,
`padlen = 3*max(len(b), len(a))`: odd-extend the signal by `padlen` on
both sides, filter forward, filter the reverse, reverse, and slice the
original range.  Returns `none` when `len(x) <= padlen`, where scipy
raises `ValueError` ("The length of the input vector x must be greater
than padlen"). -/
noncomputable def filtfilt (b x : List ℝ) : Option (List ℝ) :=
  let p := 3 * max b.length 1
  if x.length ≤ p then none
  else
    let x0 := x.getD 0 0
    let xl := x.getD (x.length - 1) 0
    let front := (List.range p).map (fun i => 2 * x0 - x.getD (p - i) 0)
    let back := (List.range p).map (fun i => 2 * xl - x.getD (x.length - 2 - i) 0)
    let ext := front ++ x ++ back
    let zi := lfilter_zi b
    let y1 := lfilter b (zi.map (fun v => v * ext.getD 0 0)) ext
    let y2 := (lfilter b (zi.map (fun v => v * y1.getD (y1.length - 1) 0)) y1.reverse).reverse
    some ((y2.drop p).take x.length)

/-- The tap count `fir_filter` finally uses (source lines 118–121):
the `kaiserord` estimate, capped at `int(len(signal)/3.5)` when it
exceeds `len(signal)/3.5`, then forced odd by `numtaps |= 1`. -/
noncomputable def firNumtaps (n : ℕ) (Fs width ripple : ℝ) : ℤ :=
  let nt := kaiserordNumtaps ripple (width / (0.5 * Fs))
  let nt2 := if ((n : ℝ) / 3.5 < (nt : ℝ)) then ⌊(n : ℝ) / 3.5⌋ else nt
  if nt2 % 2 = 0 then nt2 + 1 else nt2

/-- Model of `fir_filter(signal, Fs, cutoff=[low, high], type='bandpass',
width=0.2, ripple=65)` from the source: Kaiser-window order estimation,
length cap, odd tap count, `firwin` kernel synthesis and zero-phase
`filtfilt` application.  `none` models the scipy `ValueError`s: `firwin`
rejects non-normalisable cutoffs (needs `0 < low` and `high < Fs/2`) or a
non-positive tap count, and `filtfilt` rejects short signals. -/
noncomputable def fir_filter (signal : List ℝ) (Fs low high width ripple : ℝ) :
    Option (List ℝ) :=
  let beta := kaiser_beta |ripple|
  let numtaps := firNumtaps signal.length Fs width ripple
  let nyq := 0.5 * Fs
  if 0 < numtaps ∧ 0 < low / nyq ∧ low / nyq < high / nyq ∧ high / nyq < 1 then
    filtfilt (firwin numtaps.toNat (low / nyq) (high / nyq) beta) signal
  else none

/-- The pre-cap estimated order computed by `fir_filter` for the fixed
design constants ripple = 65 dB and transition width 0.2 Hz, as a
function of the sampling rate (source line 118). -/
noncomputable def estimatedOrder (Fs : ℝ) : ℤ :=
  kaiserordNumtaps 65 (0.2 / (0.5 * Fs))

/-- The Kaiser beta computed by the same `kaiserord` call. -/
noncomputable def estimatedBeta (Fs : ℝ) : ℝ :=
  (kaiserord 65 (0.2 / (0.5 * Fs))).2

/-! ### the SQI pipeline -/

/-- Upper bound of the optical-density linear range. -/
def thrUp_intensity : ℝ := 2.5

/-- Lower bound of the optical-density linear range. -/
def thrLow_intensity : ℝ := 0.04

/-- Stage-1 threshold on the hemoglobin energy log-ratio. -/
def thr_sumHbratio : ℝ := 0.67

/-- Stage-2 threshold on the autocorrelation-difference metric. -/
def thr_acorrDiffODs : ℝ := 40

/-- Stage-3 regression slope. -/
def slope : ℝ := 1.795613343002295

/-- Stage-3 regression intercept. -/
def intercept : ℝ := 0.846108994828045

/-- Stage-1 first feature (source lines 60–61): some raw optical-density
sample lies outside the linear range, i.e. `np.any(OD < thrLow)` or
`np.any(OD > thrUp)` for either channel. -/
def outOfRange (OD1 OD2 : List ℝ) : Prop :=
  (∃ v ∈ OD1, v < thrLow_intensity) ∨ (∃ v ∈ OD1, thrUp_intensity < v) ∨
    (∃ v ∈ OD2, v < thrLow_intensity) ∨ (∃ v ∈ OD2, thrUp_intensity < v)

/-- Stage-1 second feature (source line 66): a flat optical-density line. -/
def flatline (OD1 OD2 : List ℝ) : Prop :=
  npStd OD1 = 0 ∨ npStd OD2 = 0

/-- Stage-1 Pass A fails: one of the two pre-filter gates fires. -/
def passAfail (OD1 OD2 : List ℝ) : Prop :=
  outOfRange OD1 OD2 ∨ flatline OD1 OD2

/-- Full autocorrelation of a signal normalised by its energy
(source lines 90–91): `correlate(x, x) / np.sum(x**2)`. -/
noncomputable def autocorrN (x : List ℝ) : List ℝ :=
  (correlate x x).map (fun v => v / sumSq x)

/-- Value of one IEEE-754 double as it flows through the Stage-3
arithmetic: an ordinary real number, `nan`, or a signed infinity. -/
inductive NpFloat : Type
  | real (x : ℝ)
  | nan
  | posInf
  | negInf

/-- IEEE division of two reals as numpy performs it: an ordinary quotient
for a nonzero denominator; for a zero denominator, `inf` with the sign of
the numerator, and `nan` for `0/0`. -/
noncomputable def npDiv (a b : ℝ) : NpFloat :=
  if b ≠ 0 then NpFloat.real (a / b)
  else if 0 < a then NpFloat.posInf
  else if a < 0 then NpFloat.negInf
  else NpFloat.nan

/-- IEEE `np.log`: defined for positive reals, `-inf` at `0`, `nan` on
negatives and `nan`, and `log(inf) = inf`. -/
noncomputable def npLog : NpFloat → NpFloat
  | NpFloat.real x =>
      if 0 < x then NpFloat.real (Real.log x)
      else if x = 0 then NpFloat.negInf else NpFloat.nan
  | NpFloat.posInf => NpFloat.posInf
  | NpFloat.negInf => NpFloat.nan
  | NpFloat.nan => NpFloat.nan

/-- IEEE multiplication by a real constant: infinities keep or flip their
sign with the sign of the constant and `inf * 0 = nan`. -/
noncomputable def npMulConst : NpFloat → ℝ → NpFloat
  | NpFloat.real x, c => NpFloat.real (x * c)
  | NpFloat.nan, _ => NpFloat.nan
  | NpFloat.posInf, c =>
      if 0 < c then NpFloat.posInf else if c < 0 then NpFloat.negInf else NpFloat.nan
  | NpFloat.negInf, c =>
      if 0 < c then NpFloat.negInf else if c < 0 then NpFloat.posInf else NpFloat.nan

/-- IEEE addition of a real constant: infinities absorb it, `nan`
propagates. -/
noncomputable def npAddConst : NpFloat → ℝ → NpFloat
  | NpFloat.real x, c => NpFloat.real (x + c)
  | NpFloat.nan, _ => NpFloat.nan
  | NpFloat.posInf, _ => NpFloat.posInf
  | NpFloat.negInf, _ => NpFloat.negInf

/-- IEEE `<` against a real constant: every comparison with `nan` is
false. -/
def npLtReal : NpFloat → ℝ → Prop
  | NpFloat.real x, c => x < c
  | NpFloat.nan, _ => False
  | NpFloat.posInf, _ => False
  | NpFloat.negInf, _ => True

/-- IEEE `>` against a real constant: every comparison with `nan` is
false. -/
def npGtReal : NpFloat → ℝ → Prop
  | NpFloat.real x, c => c < x
  | NpFloat.nan, _ => False
  | NpFloat.posInf, _ => True
  | NpFloat.negInf, _ => False

/-- Stage-3 score (source lines 102–109): linear regression on
`log(std(oxy_filt)/std(dxy_filt))`, then the clamp chain
`if score < 1: 1 elif score > 5: 5`, all in IEEE arithmetic.  When
`std(dxy_filt) = 0` the ratio is `inf` (score clamps to exactly `5`) or,
with `std(oxy_filt) = 0` too, `nan` — which fails both clamp comparisons
and escapes as the returned value. -/
noncomputable def stage3score (oxyf dxyf : List ℝ) : NpFloat :=
  let logStdHb := npLog (npDiv (npStd oxyf) (npStd dxyf))
  let score := npAddConst (npMulConst logStdHb slope) intercept
  if npLtReal score 1 then NpFloat.real 1
  else if npGtReal score 5 then NpFloat.real 5
  else score

/-- Stages 2 and 3 (source lines 90–111), on the four filtered signals.
The disjunct `npStd d = 0` reproduces numpy's `1/0 = inf > 40`. -/
noncomputable def stage2and3 (OD1f OD2f oxyf dxyf : List ℝ) : Option NpFloat := do
  let d ← npSub (autocorrN OD1f) (autocorrN OD2f)
  if npStd d = 0 ∨ thr_acorrDiffODs < 1 / npStd d then some (NpFloat.real 5)
  else some (stage3score oxyf dxyf)

/-- Model of `SQI(OD1, OD2, oxy, dxy, Fs)`, the full staged pipeline of the
source.  `none` models an uncaught scipy exception escaping the call; the
returned `NpFloat` is the float the program returns (a real on every
ordinary path, `nan` on the Stage-3 degenerate path).  The conjunct
`sumAbs dxyf ≠ 0` in the Stage-1 Pass B test reproduces IEEE division:
when the denominator is `0` numpy produces `inf`/`nan`, which is never
`< 0.67`, so the gate cannot fire. -/
noncomputable def SQI (OD1 OD2 oxy dxy : List ℝ) (Fs : ℝ) : Option NpFloat :=
  if outOfRange OD1 OD2 then some (NpFloat.real 1)
  else if npStd OD1 = 0 ∨ npStd OD2 = 0 then some (NpFloat.real 1)
  else do
    let OD1f ← fir_filter (detrend OD1) Fs 0.4 3 0.2 65
    let OD2f ← fir_filter (detrend OD2) Fs 0.4 3 0.2 65
    let oxyf ← fir_filter (detrend oxy) Fs 0.4 3 0.2 65
    let dxyf ← fir_filter (detrend dxy) Fs 0.4 3 0.2 65
    if sumAbs dxyf ≠ 0 ∧ Real.log (sumAbs oxyf / sumAbs dxyf) < thr_sumHbratio
    then some (NpFloat.real 1)
    else stage2and3 OD1f OD2f oxyf dxyf



lemma length_detrend (x : List ℝ) : (detrend x).length = x.length := by
  simp [detrend]

lemma map_range_getD (x : List ℝ) :
    (List.range x.length).map (fun n => x.getD n 0) = x := by
  apply List.ext_getElem
  · simp
  · intro i h1 h2
    simp [List.getD_eq_getElem, h2]

lemma firwin_length (numtaps : ℕ) (l r beta : ℝ) :
    (firwin numtaps l r beta).length = numtaps := by
  unfold firwin kaiserWindow
  split <;> simp

lemma lfilter_length (b zi x : List ℝ) : (lfilter b zi x).length = x.length := by
  simp [lfilter]

lemma lfilter_one (zi x : List ℝ) (hzi : zi = []) : lfilter [1] zi x = x := by
  subst hzi
  apply List.ext_getElem
  · simp [lfilter]
  · intro i h1 h2
    simp [lfilter, show List.range 1 = [0] from rfl, List.getElem?_eq_getElem, h2]

lemma lfilter_zi_one : lfilter_zi [(1 : ℝ)] = [] := by
  simp [lfilter_zi]

lemma filtfilt_one (x : List ℝ) (h : 3 < x.length) : filtfilt [(1 : ℝ)] x = some x := by
  rw [filtfilt]
  simp only [List.length_cons, List.length_nil, zero_add, max_self, mul_one,
    lfilter_zi_one, List.map_nil]
  rw [if_neg (by omega)]
  rw [lfilter_one _ _ rfl, lfilter_one _ _ rfl, List.reverse_reverse]
  rw [List.append_assoc, List.drop_left' (by simp), List.take_left' rfl]

lemma filtfilt_short (b x : List ℝ) (h : x.length ≤ 3) : filtfilt b x = none := by
  rw [filtfilt]
  rw [if_pos (by omega)]

lemma filtfilt_isSome (b x : List ℝ) (h : 3 * max b.length 1 < x.length) :
    ∃ v, filtfilt b x = some v ∧ v.length = x.length := by
  rw [filtfilt]
  rw [if_neg (by omega)]
  refine ⟨_, rfl, ?_⟩
  simp [lfilter_length, List.length_take, List.length_drop]


lemma abs65 : |(65 : ℝ)| = 65 := by norm_num

lemma two_le_kaiserordNumtaps (w : ℝ) (hw : 0 < w) : 2 ≤ kaiserordNumtaps 65 w := by
  unfold kaiserordNumtaps
  rw [abs65]
  have h0 : (0 : ℝ) < (65 - 7.95) / 2.285 / (Real.pi * w) := by positivity
  have h1 : ((1 : ℤ) : ℝ) < (65 - 7.95) / 2.285 / (Real.pi * w) + 1 := by push_cast; linarith
  have := Int.lt_ceil.mpr h1
  omega

lemma kaiserord_10_ge : 100 ≤ kaiserordNumtaps 65 (0.2 / (0.5 * 10)) := by
  unfold kaiserordNumtaps
  rw [abs65]
  have hπ := Real.pi_lt_315
  have hπ0 := Real.pi_pos
  have h1 : ((99 : ℤ) : ℝ) < (65 - 7.95) / 2.285 / (Real.pi * (0.2 / (0.5 * 10))) + 1 := by
    push_cast
    rw [div_div]
    have h2 : (98 : ℝ) < (65 - 7.95) / (2.285 * (Real.pi * (0.2 / (0.5 * 10)))) := by
      rw [lt_div_iff (by positivity)]
      nlinarith
    linarith
  have := Int.lt_ceil.mpr h1
  omega

lemma kaiserord_1_le : kaiserordNumtaps 65 (0.2 / (0.5 * 1)) ≤ 30 := by
  unfold kaiserordNumtaps
  rw [abs65]
  have hπ := Real.pi_gt_314
  have hπ0 := Real.pi_pos
  apply Int.ceil_le.mpr
  push_cast
  rw [div_div]
  have h2 : (65 - 7.95 : ℝ) / (2.285 * (Real.pi * (0.2 / (0.5 * 1)))) ≤ 25 := by
    rw [div_le_iff (by positivity)]
    nlinarith
  linarith

lemma firNumtaps_props (n : ℕ) (Fs : ℝ) (hFs : 0 < Fs) :
    1 ≤ firNumtaps n Fs 0.2 65 ∧ Odd (firNumtaps n Fs 0.2 65) ∧
      ((firNumtaps n Fs 0.2 65 : ℤ) : ℝ) ≤ (n : ℝ) / 3.5 + 1 := by
  have hw : (0 : ℝ) < 0.2 / (0.5 * Fs) := by positivity
  have h2 := two_le_kaiserordNumtaps _ hw
  simp only [firNumtaps]
  by_cases hc : ((n : ℕ) : ℝ) / 3.5 < ((kaiserordNumtaps 65 (0.2 / (0.5 * Fs)) : ℤ) : ℝ)
  · rw [if_pos hc]
    have hm0 : 0 ≤ ⌊((n : ℕ) : ℝ) / 3.5⌋ := Int.floor_nonneg.mpr (by positivity)
    have hmle : ((⌊((n : ℕ) : ℝ) / 3.5⌋ : ℤ) : ℝ) ≤ ((n : ℕ) : ℝ) / 3.5 := Int.floor_le _
    rcases Int.emod_two_eq_zero_or_one ⌊((n : ℕ) : ℝ) / 3.5⌋ with h | h
    · rw [if_pos h]
      refine ⟨by omega, Int.odd_iff.mpr (by omega), ?_⟩
      push_cast
      push_cast at hmle
      linarith
    · rw [if_neg (by omega)]
      exact ⟨by omega, Int.odd_iff.mpr h, by linarith⟩
  · rw [if_neg hc]
    push_neg at hc
    rcases Int.emod_two_eq_zero_or_one (kaiserordNumtaps 65 (0.2 / (0.5 * Fs))) with h | h
    · rw [if_pos h]
      refine ⟨by omega, Int.odd_iff.mpr (by omega), ?_⟩
      push_cast
      linarith
    · rw [if_neg (by omega)]
      exact ⟨by omega, Int.odd_iff.mpr h, by linarith⟩

lemma firNumtaps_10 (n : ℕ) (m : ℤ) (hn : ((n : ℕ) : ℝ) / 3.5 < 100)
    (hf : ⌊((n : ℕ) : ℝ) / 3.5⌋ = m) :
    firNumtaps n 10 0.2 65 = if m % 2 = 0 then m + 1 else m := by
  simp only [firNumtaps]
  have h' : ((100 : ℤ) : ℝ) ≤ ((kaiserordNumtaps 65 (0.2 / (0.5 * 10)) : ℤ) : ℝ) := by
    exact_mod_cast kaiserord_10_ge
  have hcond : ((n : ℕ) : ℝ) / 3.5 < ((kaiserordNumtaps 65 (0.2 / (0.5 * 10)) : ℤ) : ℝ) := by
    push_cast at h'
    linarith
  rw [if_pos hcond, hf]

lemma firNumtaps_2_10 : firNumtaps 2 10 0.2 65 = 1 := by
  rw [firNumtaps_10 2 0 (by norm_num) (by
    apply Int.floor_eq_iff.mpr
    constructor <;> push_cast <;> norm_num)]
  norm_num

lemma firNumtaps_4_10 : firNumtaps 4 10 0.2 65 = 1 := by
  rw [firNumtaps_10 4 1 (by norm_num) (by
    apply Int.floor_eq_iff.mpr
    constructor <;> push_cast <;> norm_num)]
  norm_num

lemma firNumtaps_20_10 : firNumtaps 20 10 0.2 65 = 5 := by
  rw [firNumtaps_10 20 5 (by norm_num) (by
    apply Int.floor_eq_iff.mpr
    constructor <;> push_cast <;> norm_num)]
  norm_num

lemma firNumtaps_14_10 : firNumtaps 14 10 0.2 65 = 5 := by
  rw [firNumtaps_10 14 4 (by norm_num) (by
    apply Int.floor_eq_iff.mpr
    constructor <;> push_cast <;> norm_num)]
  norm_num


lemma firwin_one (l r beta : ℝ) (h : l < r) : firwin 1 l r beta = [1] := by
  have hrl : r - l ≠ 0 := sub_ne_zero.mpr (ne_of_gt h)
  unfold firwin kaiserWindow
  norm_num [show List.range 1 = [0] from rfl, sinc]
  exact div_self hrl

lemma fir_filter_id4 (x : List ℝ) (h : x.length = 4) :
    fir_filter x 10 0.4 3 0.2 65 = some x := by
  simp only [fir_filter]
  rw [h, firNumtaps_4_10]
  rw [if_pos (by norm_num)]
  rw [show ((1 : ℤ).toNat) = 1 from rfl]
  rw [firwin_one _ _ _ (by norm_num)]
  exact filtfilt_one x (by omega)

lemma fir_filter_short (x : List ℝ) (Fs low high width ripple : ℝ) (h : x.length ≤ 3) :
    fir_filter x Fs low high width ripple = none := by
  simp only [fir_filter]
  split
  · exact filtfilt_short _ _ h
  · rfl

lemma npSub_of_length_eq (a b : List ℝ) (h : a.length = b.length) :
    npSub a b = some (List.zipWith (fun u v => u - v) a b) := by
  unfold npSub
  rw [if_pos h]

lemma autocorrN_length (x : List ℝ) :
    (autocorrN x).length = x.length + x.length - 1 := by
  simp [autocorrN, correlate, convolve]

lemma SQI_passA {OD1 OD2 : List ℝ} (oxy dxy : List ℝ) (Fs : ℝ) (h : passAfail OD1 OD2) :
    SQI OD1 OD2 oxy dxy Fs = some (NpFloat.real 1) := by
  unfold SQI
  rcases h with h | h
  · rw [if_pos h]
  · by_cases ho : outOfRange OD1 OD2
    · rw [if_pos ho]
    · rw [if_neg ho, if_pos (show npStd OD1 = 0 ∨ npStd OD2 = 0 from h)]

lemma SQI_filtered {OD1 OD2 oxy dxy OD1f OD2f oxyf dxyf : List ℝ} {Fs : ℝ}
    (hpa : ¬ passAfail OD1 OD2)
    (h1 : fir_filter (detrend OD1) Fs 0.4 3 0.2 65 = some OD1f)
    (h2 : fir_filter (detrend OD2) Fs 0.4 3 0.2 65 = some OD2f)
    (h3 : fir_filter (detrend oxy) Fs 0.4 3 0.2 65 = some oxyf)
    (h4 : fir_filter (detrend dxy) Fs 0.4 3 0.2 65 = some dxyf) :
    SQI OD1 OD2 oxy dxy Fs =
      if sumAbs dxyf ≠ 0 ∧ Real.log (sumAbs oxyf / sumAbs dxyf) < thr_sumHbratio
      then some (NpFloat.real 1)
      else stage2and3 OD1f OD2f oxyf dxyf := by
  unfold SQI
  rw [if_neg (fun ho => hpa (Or.inl ho)),
    if_neg (show ¬ (npStd OD1 = 0 ∨ npStd OD2 = 0) from fun hf => hpa (Or.inr hf))]
  rw [h1, h2, h3, h4]
  rfl


lemma npVar_nonneg (x : List ℝ) : 0 ≤ npVar x := by
  unfold npVar
  apply div_nonneg
  · apply List.sum_nonneg
    intro y hy
    simp only [List.mem_map] at hy
    obtain ⟨v, _, rfl⟩ := hy
    positivity
  · positivity

lemma npStd_ne_zero (x : List ℝ) (h : 0 < npVar x) : npStd x ≠ 0 := by
  unfold npStd
  exact ne_of_gt (Real.sqrt_pos.mpr h)

lemma npStd_of_var_zero (x : List ℝ) (h : npVar x = 0) : npStd x = 0 := by
  unfold npStd
  rw [h, Real.sqrt_zero]

lemma not_passA (OD1 OD2 : List ℝ)
    (h1 : ∀ v ∈ OD1, thrLow_intensity ≤ v ∧ v ≤ thrUp_intensity)
    (h2 : ∀ v ∈ OD2, thrLow_intensity ≤ v ∧ v ≤ thrUp_intensity)
    (h3 : 0 < npVar OD1) (h4 : 0 < npVar OD2) : ¬ passAfail OD1 OD2 := by
  rintro ((⟨v, hv, hlt⟩ | ⟨v, hv, hlt⟩ | ⟨v, hv, hlt⟩ | ⟨v, hv, hlt⟩) | hs | hs)
  · exact absurd hlt (not_lt.mpr (h1 v hv).1)
  · exact absurd hlt (not_lt.mpr (h1 v hv).2)
  · exact absurd hlt (not_lt.mpr (h2 v hv).1)
  · exact absurd hlt (not_lt.mpr (h2 v hv).2)
  · exact npStd_ne_zero _ h3 hs
  · exact npStd_ne_zero _ h4 hs

lemma log_not_lt_thr (x : ℝ) (hx : (2.72 : ℝ) ≤ x) :
    ¬ (Real.log x < thr_sumHbratio) := by
  unfold thr_sumHbratio
  rw [not_lt]
  have h2 : Real.exp 0.67 ≤ Real.exp 1 := Real.exp_le_exp.mpr (by norm_num)
  have h1 : Real.exp 0.67 < 2.72 := by
    have := Real.exp_one_lt_d9
    linarith
  exact (Real.le_log_iff_exp_le (by linarith)).mpr (by linarith)

lemma log_lt_thr_of_le_one (x : ℝ) (h0 : 0 ≤ x) (hx : x ≤ 1) :
    Real.log x < thr_sumHbratio := by
  unfold thr_sumHbratio
  have := Real.log_nonpos h0 hx
  linarith

lemma fir_filter_success (x : List ℝ) (Fs : ℝ) (hFs : 6 < Fs) (hn : 22 ≤ x.length) :
    ∃ v, fir_filter x Fs 0.4 3 0.2 65 = some v ∧ v.length = x.length := by
  obtain ⟨hpos, hodd, hle⟩ := firNumtaps_props x.length Fs (by linarith)
  simp only [fir_filter]
  have hc : (0 : ℝ) < 0.5 * Fs := by linarith
  have hguard : 0 < firNumtaps x.length Fs 0.2 65 ∧ 0 < 0.4 / (0.5 * Fs) ∧
      0.4 / (0.5 * Fs) < 3 / (0.5 * Fs) ∧ 3 / (0.5 * Fs) < 1 := by
    refine ⟨hpos, by positivity, ?_, ?_⟩
    · exact (div_lt_div_iff_of_pos_right hc).mpr (by norm_num)
    · rw [div_lt_one hc]
      linarith
  rw [if_pos hguard]
  apply filtfilt_isSome
  rw [firwin_length]
  have htn : (((firNumtaps x.length Fs 0.2 65).toNat : ℕ) : ℝ) ≤ (x.length : ℝ) / 3.5 + 1 := by
    rw [show (((firNumtaps x.length Fs 0.2 65).toNat : ℕ) : ℝ)
        = ((firNumtaps x.length Fs 0.2 65 : ℤ) : ℝ) from by
      rw [← Int.cast_natCast]
      congr 1
      omega]
    exact hle
  have hn' : (22 : ℝ) ≤ (x.length : ℝ) := by exact_mod_cast hn
  have htn' : (((firNumtaps x.length Fs 0.2 65).toNat : ℕ) : ℝ) ≤ (x.length : ℝ) * (2 / 7) + 1 := by
    rw [show ((x.length : ℝ) * (2 / 7)) = (x.length : ℝ) / 3.5 from by ring]
    exact htn
  have hr : 3 * (((firNumtaps x.length Fs 0.2 65).toNat : ℕ) : ℝ) < (x.length : ℝ) := by
    linarith
  have h3 : 3 * (firNumtaps x.length Fs 0.2 65).toNat < x.length := by exact_mod_cast hr
  rw [max_eq_left (by omega)]
  exact h3

lemma stage2and3_isSome (a b c d : List ℝ)
    (hlen : (autocorrN a).length = (autocorrN b).length) :
    ∃ s, stage2and3 a b c d = some s := by
  unfold stage2and3
  rw [npSub_of_length_eq _ _ hlen]
  by_cases hg : npStd (List.zipWith (fun u v => u - v) (autocorrN a) (autocorrN b)) = 0 ∨
      thr_acorrDiffODs <
        1 / npStd (List.zipWith (fun u v => u - v) (autocorrN a) (autocorrN b))
  · refine ⟨NpFloat.real 5, ?_⟩
    show (if _ ∨ _ then some (NpFloat.real 5) else some (stage3score c d)) = some (NpFloat.real 5)
    rw [if_pos hg]
  · refine ⟨stage3score c d, ?_⟩
    show (if _ ∨ _ then some (NpFloat.real 5) else some (stage3score c d))
      = some (stage3score c d)
    rw [if_neg hg]

lemma SQI_total (OD1 OD2 oxy dxy : List ℝ) (Fs : ℝ) (n : ℕ)
    (h1 : OD1.length = n) (h2 : OD2.length = n) (h3 : oxy.length = n) (h4 : dxy.length = n)
    (hn : 22 ≤ n) (hFs : 6 < Fs) : ∃ s, SQI OD1 OD2 oxy dxy Fs = some s := by
  by_cases hpa : passAfail OD1 OD2
  · exact ⟨NpFloat.real 1, SQI_passA _ _ _ hpa⟩
  · obtain ⟨v1, hv1, hl1⟩ := fir_filter_success (detrend OD1) Fs hFs (by rw [length_detrend, h1]; exact hn)
    obtain ⟨v2, hv2, hl2⟩ := fir_filter_success (detrend OD2) Fs hFs (by rw [length_detrend, h2]; exact hn)
    obtain ⟨v3, hv3, hl3⟩ := fir_filter_success (detrend oxy) Fs hFs (by rw [length_detrend, h3]; exact hn)
    obtain ⟨v4, hv4, hl4⟩ := fir_filter_success (detrend dxy) Fs hFs (by rw [length_detrend, h4]; exact hn)
    rw [SQI_filtered hpa hv1 hv2 hv3 hv4]
    by_cases hB : sumAbs v4 ≠ 0 ∧ Real.log (sumAbs v3 / sumAbs v4) < thr_sumHbratio
    · exact ⟨NpFloat.real 1, by rw [if_pos hB]⟩
    · rw [if_neg hB]
      apply stage2and3_isSome
      rw [autocorrN_length, autocorrN_length, hl1, hl2, length_detrend, length_detrend, h1, h2]


lemma range4 : List.range 4 = [0, 1, 2, 3] := rfl

lemma detrend_1212 : detrend [(1 : ℝ), 2, 1, 2] = [-0.2, 0.6, -0.6, 0.2] := by
  norm_num [detrend, range4]

lemma detrend_2121 : detrend [(2 : ℝ), 1, 2, 1] = [0.2, -0.6, 0.6, -0.2] := by
  norm_num [detrend, range4]

lemma detrend_1221 : detrend [(1 : ℝ), 2, 2, 1] = [-0.5, 0.5, 0.5, -0.5] := by
  norm_num [detrend, range4]

lemma detrend_m8 : detrend [(-8 : ℝ), 8, 8, -8] = [-8, 8, 8, -8] := by
  norm_num [detrend, range4]

lemma detrend_m1 : detrend [(-1 : ℝ), 1, 1, -1] = [-1, 1, 1, -1] := by
  norm_num [detrend, range4]

lemma detrend_m16 : detrend [(-16 : ℝ), 16, 16, -16] = [-16, 16, 16, -16] := by
  norm_num [detrend, range4]

lemma detrend_m2 : detrend [(-2 : ℝ), 2, 2, -2] = [-2, 2, 2, -2] := by
  norm_num [detrend, range4]

lemma autocorr_a : autocorrN [(-0.2 : ℝ), 0.6, -0.6, 0.2] =
    [-0.05, 0.3, -0.75, 1, -0.75, 0.3, -0.05] := by
  norm_num [autocorrN, correlate, convolve, sumSq,
    show List.range 7 = [0, 1, 2, 3, 4, 5, 6] from rfl,
    show List.range 1 = [0] from rfl, show List.range 2 = [0, 1] from rfl,
    show List.range 3 = [0, 1, 2] from rfl, range4,
    show List.range 5 = [0, 1, 2, 3, 4] from rfl,
    show List.range 6 = [0, 1, 2, 3, 4, 5] from rfl]

lemma autocorr_a2 : autocorrN [(0.2 : ℝ), -0.6, 0.6, -0.2] =
    [-0.05, 0.3, -0.75, 1, -0.75, 0.3, -0.05] := by
  norm_num [autocorrN, correlate, convolve, sumSq,
    show List.range 7 = [0, 1, 2, 3, 4, 5, 6] from rfl,
    show List.range 1 = [0] from rfl, show List.range 2 = [0, 1] from rfl,
    show List.range 3 = [0, 1, 2] from rfl, range4,
    show List.range 5 = [0, 1, 2, 3, 4] from rfl,
    show List.range 6 = [0, 1, 2, 3, 4, 5] from rfl]

lemma autocorr_b : autocorrN [(-0.5 : ℝ), 0.5, 0.5, -0.5] =
    [0.25, -0.5, -0.25, 1, -0.25, -0.5, 0.25] := by
  norm_num [autocorrN, correlate, convolve, sumSq,
    show List.range 7 = [0, 1, 2, 3, 4, 5, 6] from rfl,
    show List.range 1 = [0] from rfl, show List.range 2 = [0, 1] from rfl,
    show List.range 3 = [0, 1, 2] from rfl, range4,
    show List.range 5 = [0, 1, 2, 3, 4] from rfl,
    show List.range 6 = [0, 1, 2, 3, 4, 5] from rfl]

lemma zip_diff_eval :
    List.zipWith (fun u v => u - v) [(-0.05 : ℝ), 0.3, -0.75, 1, -0.75, 0.3, -0.05]
      [(0.25 : ℝ), -0.5, -0.25, 1, -0.25, -0.5, 0.25] =
      [-0.3, 0.8, -0.5, 0, -0.5, 0.8, -0.3] := by
  norm_num [List.zipWith]

lemma npVar_diff_eval : npVar [(-0.3 : ℝ), 0.8, -0.5, 0, -0.5, 0.8, -0.3] = 0.28 := by
  norm_num [npVar, npMean]


lemma SQI_some_of_filters {OD1 OD2 oxy dxy v1 v2 v3 v4 : List ℝ} {Fs : ℝ}
    (hpa : ¬ passAfail OD1 OD2)
    (hv1 : fir_filter (detrend OD1) Fs 0.4 3 0.2 65 = some v1)
    (hv2 : fir_filter (detrend OD2) Fs 0.4 3 0.2 65 = some v2)
    (hv3 : fir_filter (detrend oxy) Fs 0.4 3 0.2 65 = some v3)
    (hv4 : fir_filter (detrend dxy) Fs 0.4 3 0.2 65 = some v4)
    (hlen : v1.length = v2.length) :
    ∃ s, SQI OD1 OD2 oxy dxy Fs = some s := by
  rw [SQI_filtered hpa hv1 hv2 hv3 hv4]
  by_cases hB : sumAbs v4 ≠ 0 ∧ Real.log (sumAbs v3 / sumAbs v4) < thr_sumHbratio
  · exact ⟨NpFloat.real 1, by rw [if_pos hB]⟩
  · rw [if_neg hB]
    apply stage2and3_isSome
    rw [autocorrN_length, autocorrN_length, hlen]

lemma fir_filter_success20 (x : List ℝ) (h : x.length = 20) :
    ∃ v, fir_filter x 10 0.4 3 0.2 65 = some v ∧ v.length = 20 := by
  simp only [fir_filter]
  rw [h, firNumtaps_20_10, if_pos (by norm_num)]
  have hlen : 3 * max (firwin (5 : ℤ).toNat (0.4 / (0.5 * 10)) (3 / (0.5 * 10))
      (kaiser_beta |(65 : ℝ)|)).length 1 < x.length := by
    rw [firwin_length, h]
    decide
  obtain ⟨v, hv, hl⟩ := filtfilt_isSome _ x hlen
  exact ⟨v, hv, by rw [hl, h]⟩


lemma slope_pos : (0 : ℝ) < slope := by norm_num [slope]

lemma intercept_lt_one : intercept < (1 : ℝ) := by norm_num [intercept]

lemma npDiv_of_ne_zero (a b : ℝ) (h : b ≠ 0) : npDiv a b = NpFloat.real (a / b) := by
  unfold npDiv
  rw [if_pos h]

lemma npDiv_zero_zero : npDiv 0 0 = NpFloat.nan := by
  unfold npDiv
  norm_num

lemma stage3score_nan (oxyf dxyf : List ℝ) (h1 : npStd oxyf = 0) (h2 : npStd dxyf = 0) :
    stage3score oxyf dxyf = NpFloat.nan := by
  simp only [stage3score, h1, h2, npDiv_zero_zero]
  show (if npLtReal NpFloat.nan 1 then _ else if npGtReal NpFloat.nan 5 then _ else _) = _
  rw [if_neg (by simp [npLtReal, npLog, npMulConst, npAddConst]),
    if_neg (by simp [npGtReal, npLog, npMulConst, npAddConst])]
  rfl

lemma stage3score_of_ne_zero (oxyf dxyf : List ℝ) (hd : npStd dxyf ≠ 0) :
    stage3score oxyf dxyf =
      NpFloat.real (min 5 (max 1 (Real.log (npStd oxyf / npStd dxyf) * slope + intercept))) := by
  have hso : 0 ≤ npStd oxyf := Real.sqrt_nonneg _
  have hsd : 0 < npStd dxyf := lt_of_le_of_ne (Real.sqrt_nonneg _) (Ne.symm hd)
  simp only [stage3score, npDiv_of_ne_zero _ _ hd]
  rcases eq_or_lt_of_le hso with hzero | hpos
  · -- std(oxy_f) = 0: IEEE path gives -inf, clamped to 1; the real formula also gives 1
    rw [show npStd oxyf = 0 from hzero.symm]
    rw [show npLog (NpFloat.real (0 / npStd dxyf)) = NpFloat.negInf from by
      simp [npLog, zero_div]]
    rw [show npMulConst NpFloat.negInf slope = NpFloat.negInf from by
      simp [npMulConst, slope_pos]]
    rw [show npAddConst NpFloat.negInf intercept = NpFloat.negInf from rfl]
    rw [if_pos (show npLtReal NpFloat.negInf 1 from trivial)]
    rw [zero_div, Real.log_zero, zero_mul, zero_add]
    rw [max_eq_left (le_of_lt intercept_lt_one), min_eq_right (by norm_num)]
  · -- the generic real path
    have hq : 0 < npStd oxyf / npStd dxyf := div_pos hpos hsd
    rw [show npLog (NpFloat.real (npStd oxyf / npStd dxyf))
        = NpFloat.real (Real.log (npStd oxyf / npStd dxyf)) from by simp [npLog, hq]]
    rw [show npMulConst (NpFloat.real (Real.log (npStd oxyf / npStd dxyf))) slope
        = NpFloat.real (Real.log (npStd oxyf / npStd dxyf) * slope) from rfl]
    rw [show npAddConst (NpFloat.real (Real.log (npStd oxyf / npStd dxyf) * slope)) intercept
        = NpFloat.real (Real.log (npStd oxyf / npStd dxyf) * slope + intercept) from rfl]
    set r := Real.log (npStd oxyf / npStd dxyf) * slope + intercept with hr
    show (if npLtReal (NpFloat.real r) 1 then _ else if npGtReal (NpFloat.real r) 5 then _ else _) = _
    by_cases h1 : r < 1
    · rw [if_pos (show npLtReal (NpFloat.real r) 1 from h1)]
      rw [max_eq_left (le_of_lt h1), min_eq_right (by norm_num)]
    · rw [if_neg (show ¬ npLtReal (NpFloat.real r) 1 from h1)]
      by_cases h5 : 5 < r
      · rw [if_pos (show npGtReal (NpFloat.real r) 5 from h5)]
        rw [max_eq_right (by push_neg at h1; linarith), min_eq_left (by linarith)]
      · rw [if_neg (show ¬ npGtReal (NpFloat.real r) 5 from h5)]
        rw [max_eq_right (by push_neg at h1; linarith), min_eq_right (by push_neg at h5; linarith)]

lemma stage3score_posInf (oxyf dxyf : List ℝ) (h1 : npStd oxyf ≠ 0) (h2 : npStd dxyf = 0) :
    stage3score oxyf dxyf = NpFloat.real 5 := by
  have hpos : 0 < npStd oxyf := lt_of_le_of_ne (Real.sqrt_nonneg _) (Ne.symm h1)
  simp only [stage3score, h2]
  rw [show npDiv (npStd oxyf) 0 = NpFloat.posInf from by unfold npDiv; simp [hpos]]
  rw [show npLog NpFloat.posInf = NpFloat.posInf from rfl]
  rw [show npMulConst NpFloat.posInf slope = NpFloat.posInf from by simp [npMulConst, slope_pos]]
  rw [show npAddConst NpFloat.posInf intercept = NpFloat.posInf from rfl]
  rw [if_neg (show ¬ npLtReal NpFloat.posInf 1 from fun h => h),
    if_pos (show npGtReal NpFloat.posInf 5 from trivial)]

lemma detrend_zero4 : detrend [(0 : ℝ), 0, 0, 0] = [0, 0, 0, 0] := by
  norm_num [detrend, range4]

lemma npStd_zero4 : npStd [(0 : ℝ), 0, 0, 0] = 0 :=
  npStd_of_var_zero _ (by norm_num [npVar, npMean])

lemma sumAbs_zero4 : sumAbs [(0 : ℝ), 0, 0, 0] = 0 := by
  norm_num [sumAbs]

lemma gate_off_diff :
    ¬ (npStd [(-0.3 : ℝ), 0.8, -0.5, 0, -0.5, 0.8, -0.3] = 0 ∨
      thr_acorrDiffODs < 1 / npStd [(-0.3 : ℝ), 0.8, -0.5, 0, -0.5, 0.8, -0.3]) := by
  have hv : npVar [(-0.3 : ℝ), 0.8, -0.5, 0, -0.5, 0.8, -0.3] = 0.28 := npVar_diff_eval
  have hpos : 0 < npStd [(-0.3 : ℝ), 0.8, -0.5, 0, -0.5, 0.8, -0.3] := by
    unfold npStd
    rw [hv]
    exact Real.sqrt_pos.mpr (by norm_num)
  have h14 : (1 / 40 : ℝ) ≤ npStd [(-0.3 : ℝ), 0.8, -0.5, 0, -0.5, 0.8, -0.3] := by
    unfold npStd
    rw [hv]
    have hs : Real.sqrt (1 / 1600) ≤ Real.sqrt 0.28 := Real.sqrt_le_sqrt (by norm_num)
    rwa [show (1 / 1600 : ℝ) = (1 / 40) ^ 2 from by norm_num,
      Real.sqrt_sq (by norm_num : (0 : ℝ) ≤ 1 / 40)] at hs
  rintro (hzero | hgt)
  · exact absurd hzero (ne_of_gt hpos)
  · have hle : 1 / npStd [(-0.3 : ℝ), 0.8, -0.5, 0, -0.5, 0.8, -0.3] ≤ 1 / (1 / 40 : ℝ) :=
      one_div_le_one_div_of_le (by norm_num) h14
    rw [one_div_one_div] at hle
    unfold thr_acorrDiffODs at hgt
    linarith


/-- C1: the claim's range invariant `1 ≤ score ≤ 5` is the code's own
documented contract (the docstring promises a score "ranging from 1 to
5" and lines 105–109 are commented "Forcing the score to be within 1
and 5"), but the code violates it: on this valid input (equal lengths,
finite samples, positive rate) both hemoglobin channels filter to the
zero vector, Stage 3 computes `log(0/0) = nan`, and `nan` fails both
clamp comparisons, so the program returns `nan` — a score outside
`[1, 5]`. -/
theorem C1_nan_escape :
    SQI [2, 1, 2, 1] [1, 2, 2, 1] [0, 0, 0, 0] [0, 0, 0, 0] 10 = some NpFloat.nan := by
  have hpa : ¬ passAfail [(2 : ℝ), 1, 2, 1] [(1 : ℝ), 2, 2, 1] :=
    not_passA _ _
      (by intro v hv; fin_cases hv <;> norm_num [thrLow_intensity, thrUp_intensity])
      (by intro v hv; fin_cases hv <;> norm_num [thrLow_intensity, thrUp_intensity])
      (by norm_num [npVar, npMean]) (by norm_num [npVar, npMean])
  rw [SQI_filtered hpa
    (fir_filter_id4 _ (by simp [length_detrend]))
    (fir_filter_id4 _ (by simp [length_detrend]))
    (fir_filter_id4 _ (by simp [length_detrend]))
    (fir_filter_id4 _ (by simp [length_detrend]))]
  rw [if_neg (show ¬ (sumAbs (detrend [(0 : ℝ), 0, 0, 0]) ≠ 0 ∧ _) from
    fun hc => hc.1 (by rw [detrend_zero4]; exact sumAbs_zero4))]
  have hgate : ¬ (npStd (List.zipWith (fun u v => u - v)
        (autocorrN (detrend [(2 : ℝ), 1, 2, 1])) (autocorrN (detrend [(1 : ℝ), 2, 2, 1]))) = 0 ∨
      thr_acorrDiffODs < 1 / npStd (List.zipWith (fun u v => u - v)
        (autocorrN (detrend [(2 : ℝ), 1, 2, 1])) (autocorrN (detrend [(1 : ℝ), 2, 2, 1])))) := by
    rw [detrend_2121, detrend_1221, autocorr_a2, autocorr_b, zip_diff_eval]
    exact gate_off_diff
  unfold stage2and3
  rw [npSub_of_length_eq _ _ (by simp [autocorrN_length, length_detrend])]
  show (if npStd _ = 0 ∨ thr_acorrDiffODs < 1 / npStd _ then some (NpFloat.real 5)
      else some (stage3score (detrend [(0 : ℝ), 0, 0, 0]) (detrend [(0 : ℝ), 0, 0, 0])))
    = some NpFloat.nan
  rw [if_neg hgate,
    stage3score_nan _ _ (by rw [detrend_zero4]; exact npStd_zero4)
      (by rw [detrend_zero4]; exact npStd_zero4)]

/-- Counterexample to C2: this input violates the preconditions in two
ways (the four sequences have lengths 2, 2, 1, 3, and the sampling rate
is negative), yet `SQI` raises nothing and returns the numeric score 1:
the code contains no input validation at all. -/
theorem C2_counterexample :
    SQI [0.03, 1] [1, 1] [1] [1, 2, 3] (-1) = some (NpFloat.real 1) :=
  SQI_passA _ _ _ (Or.inl (Or.inl ⟨0.03, by simp, by norm_num [thrLow_intensity]⟩))

/-- C2 as amended: `SQI` performs no precondition validation whatsoever.
An input whose `OD1` trips the Pass-A gate returns the numeric score 1
for arbitrary `oxy`, `dxy` (of any, even mismatched, lengths) and
arbitrary `Fs`, including non-positive sampling rates. -/
theorem C2_no_validation (oxy dxy : List ℝ) (Fs : ℝ) :
    SQI [0.03, 1] [1, 1] oxy dxy Fs = some (NpFloat.real 1) :=
  SQI_passA _ _ _ (Or.inl (Or.inl ⟨0.03, by simp, by norm_num [thrLow_intensity]⟩))

/-- Counterexample to C3: a perfectly valid input (equal lengths N = 2,
positive sampling rate, finite samples) on which the pipeline raises:
the tap-count cap gives `numtaps = 1`, and `filtfilt` requires
`len > 3*numtaps = 3`, so the zero-phase filtering step fails. -/
theorem C3_counterexample :
    SQI [0.1, 0.2] [0.1, 0.2] [1, 2] [1, 2] 10 = none := by
  have hA : ¬ outOfRange [(0.1 : ℝ), 0.2] [(0.1 : ℝ), 0.2] := by
    rintro (⟨v, hv, hlt⟩ | ⟨v, hv, hlt⟩ | ⟨v, hv, hlt⟩ | ⟨v, hv, hlt⟩) <;>
      (fin_cases hv <;> norm_num [thrLow_intensity, thrUp_intensity] at hlt)
  have hB : ¬ (npStd [(0.1 : ℝ), 0.2] = 0 ∨ npStd [(0.1 : ℝ), 0.2] = 0) := by
    rintro (hs | hs) <;> exact npStd_ne_zero _ (by norm_num [npVar, npMean]) hs
  have hnone : fir_filter (detrend [(0.1 : ℝ), 0.2]) 10 0.4 3 0.2 65 = none :=
    fir_filter_short _ _ _ _ _ _ (by simp [length_detrend])
  unfold SQI
  rw [if_neg hA, if_neg hB, hnone]
  rfl

/-- C3 as amended: the pipeline completes without raising provided the
common length is at least 22 (any sampling rate above 6 Hz, which the
3 Hz cutoff requires), and also on the spec's own example of N = 20 at
Fs = 10 Hz; but not for every valid N ≥ 2. -/
theorem C3_pipeline_total :
    (∀ (OD1 OD2 oxy dxy : List ℝ) (Fs : ℝ) (n : ℕ),
      OD1.length = n → OD2.length = n → oxy.length = n → dxy.length = n →
      22 ≤ n → 6 < Fs → ∃ s, SQI OD1 OD2 oxy dxy Fs = some s) ∧
    (∀ OD1 OD2 oxy dxy : List ℝ,
      OD1.length = 20 → OD2.length = 20 → oxy.length = 20 → dxy.length = 20 →
      ∃ s, SQI OD1 OD2 oxy dxy 10 = some s) := by
  constructor
  · intro OD1 OD2 oxy dxy Fs n h1 h2 h3 h4 hn hFs
    exact SQI_total OD1 OD2 oxy dxy Fs n h1 h2 h3 h4 hn hFs
  · intro OD1 OD2 oxy dxy h1 h2 h3 h4
    by_cases hpa : passAfail OD1 OD2
    · exact ⟨NpFloat.real 1, SQI_passA _ _ _ hpa⟩
    · obtain ⟨v1, hv1, hl1⟩ := fir_filter_success20 (detrend OD1) (by rw [length_detrend, h1])
      obtain ⟨v2, hv2, hl2⟩ := fir_filter_success20 (detrend OD2) (by rw [length_detrend, h2])
      obtain ⟨v3, hv3, hl3⟩ := fir_filter_success20 (detrend oxy) (by rw [length_detrend, h3])
      obtain ⟨v4, hv4, hl4⟩ := fir_filter_success20 (detrend dxy) (by rw [length_detrend, h4])
      exact SQI_some_of_filters hpa hv1 hv2 hv3 hv4 (by rw [hl1, hl2])

/-- Witness for C3 as amended, at concrete inputs of lengths 22 and 20. -/
theorem C3_pipeline_total_witness :
    (∃ s, SQI (List.replicate 22 (1 : ℝ)) (List.replicate 22 1)
      (List.replicate 22 1) (List.replicate 22 1) 10 = some s) ∧
    (∃ s, SQI (List.replicate 20 (1 : ℝ)) (List.replicate 20 1)
      (List.replicate 20 1) (List.replicate 20 1) 10 = some s) := by
  constructor
  · exact C3_pipeline_total.1 _ _ _ _ 10 22 (by simp) (by simp) (by simp) (by simp)
      (by norm_num) (by norm_num)
  · exact C3_pipeline_total.2 _ _ _ _ (by simp) (by simp) (by simp) (by simp)

/-- Counterexample to C4: for a signal of length 14 at 10 Hz the
odd-forcing `numtaps |= 1` bumps the capped tap count from 4 to 5,
which exceeds `len(signal)/3.5 = 4`. -/
theorem C4_counterexample :
    (14 : ℝ) / 3.5 < ((firNumtaps 14 10 0.2 65 : ℤ) : ℝ) := by
  rw [firNumtaps_14_10]
  norm_num

/-- C4 as amended: the tap count finally used is always odd, and never
exceeds `len(signal)/3.5 + 1`; the cap itself is applied before the
odd-forcing, which may add one. -/
theorem C4_tapcount (n : ℕ) (Fs : ℝ) (hFs : 0 < Fs) :
    Odd (firNumtaps n Fs 0.2 65) ∧
      ((firNumtaps n Fs 0.2 65 : ℤ) : ℝ) ≤ (n : ℝ) / 3.5 + 1 := by
  obtain ⟨h1, h2, h3⟩ := firNumtaps_props n Fs hFs
  exact ⟨h2, h3⟩

/-- Witness for C4 as amended at `n = 14`, `Fs = 10`. -/
theorem C4_tapcount_witness :
    Odd (firNumtaps 14 10 0.2 65) ∧
      ((firNumtaps 14 10 0.2 65 : ℤ) : ℝ) ≤ (14 : ℝ) / 3.5 + 1 := by
  have h := C4_tapcount 14 10 (by norm_num)
  exact ⟨h.1, by exact_mod_cast h.2⟩

/-- Counterexample to C5: the order estimated by the `kaiserord` call in
`fir_filter` differs between sampling rates 1 Hz and 10 Hz, because the
width argument `0.2/(0.5*Fs)` normalises a fixed 0.2 Hz transition band
by the Nyquist frequency, so the normalised width depends on `Fs`. -/
theorem C5_counterexample : estimatedOrder 1 ≠ estimatedOrder 10 := by
  have h1 : estimatedOrder 1 ≤ 30 := kaiserord_1_le
  have h2 : (100 : ℤ) ≤ estimatedOrder 10 := kaiserord_10_ge
  omega

/-- C5 as amended: the Kaiser beta returned by the order-estimation
step is a function of the ripple alone and is identical for all
sampling rates, but the estimated order is not: it grows with `Fs`
(the normalised transition width is `0.4/Fs`), e.g. it differs
between `Fs = 1` and `Fs = 10`. -/
theorem C5_order_beta :
    (∀ Fs1 Fs2 : ℝ, estimatedBeta Fs1 = estimatedBeta Fs2) ∧
      estimatedOrder 1 < estimatedOrder 10 := by
  refine ⟨fun _ _ => rfl, ?_⟩
  have h1 : estimatedOrder 1 ≤ 30 := kaiserord_1_le
  have h2 : (100 : ℤ) ≤ estimatedOrder 10 := kaiserord_10_ge
  omega

/-- C6: Stage-1 Pass A operates on the raw optical densities alone: if
some sample of `OD1` or `OD2` is below 0.04 or above 2.5, or either
channel has zero standard deviation, `SQI` returns exactly 1, for every
`oxy`, `dxy` and `Fs` — no detrending or filtering is reached. -/
theorem C6_stage1_passA (OD1 OD2 oxy dxy : List ℝ) (Fs : ℝ)
    (h : passAfail OD1 OD2) : SQI OD1 OD2 oxy dxy Fs = some (NpFloat.real 1) :=
  SQI_passA oxy dxy Fs h

/-- Witness for C6: the spec's two examples — a single `OD1` sample at
0.03 with everything else valid, and a constant (flat) `OD1`. -/
theorem C6_stage1_passA_witness :
    SQI [0.03, 1, 1, 1] [1, 1, 1, 1] [1, 1, 1, 1] [1, 1, 1, 1] 10 = some (NpFloat.real 1) ∧
    SQI [1, 1] [0.5, 0.6] [2, 3] [4, 5] 7 = some (NpFloat.real 1) := by
  constructor
  · exact C6_stage1_passA _ _ _ _ _
      (Or.inl (Or.inl ⟨0.03, by simp, by norm_num [thrLow_intensity]⟩))
  · exact C6_stage1_passA _ _ _ _ _
      (Or.inr (Or.inl (npStd_of_var_zero _ (by norm_num [npVar, npMean]))))

/-- C10: when Pass A fires, the result does not depend on `oxy`, `dxy`
or `Fs` at all: two calls with the same failing `OD1`, `OD2` agree for
arbitrary values of the remaining arguments. -/
theorem C10_passA_noninterference (OD1 OD2 oxy dxy oxy2 dxy2 : List ℝ) (Fs Fs2 : ℝ)
    (h : passAfail OD1 OD2) :
    SQI OD1 OD2 oxy dxy Fs = SQI OD1 OD2 oxy2 dxy2 Fs2 := by
  rw [SQI_passA _ _ _ h, SQI_passA _ _ _ h]

/-- Witness for C10: an out-of-range `OD1` sample (2.6 > 2.5) makes two
calls with wildly different `oxy`, `dxy`, `Fs` agree. -/
theorem C10_passA_noninterference_witness :
    SQI [0.2, 2.6] [1, 1.1] [1] [2] 10 = SQI [0.2, 2.6] [1, 1.1] [9, 9, 9] [8] (-3) :=
  C10_passA_noninterference _ _ _ _ _ _ _ _
    (Or.inl (Or.inr (Or.inl ⟨2.6, by simp, by norm_num [thrUp_intensity]⟩)))

/-- C7: after preprocessing (least-squares linear detrend followed by
the 0.4–3 Hz bandpass), Pass B compares `log(sum|oxy_f|/sum|dxy_f|)`
with 0.67: strictly below the threshold the pipeline returns exactly 1;
otherwise no score is assigned and Stages 2–3 run.  (`sumAbs dxyf ≠ 0`
excludes the degenerate IEEE `inf`/`nan` ratio, on which the gate never
fires.) -/
theorem C7_stage1_passB (OD1 OD2 oxy dxy OD1f OD2f oxyf dxyf : List ℝ) (Fs : ℝ)
    (hpa : ¬ passAfail OD1 OD2)
    (h1 : fir_filter (detrend OD1) Fs 0.4 3 0.2 65 = some OD1f)
    (h2 : fir_filter (detrend OD2) Fs 0.4 3 0.2 65 = some OD2f)
    (h3 : fir_filter (detrend oxy) Fs 0.4 3 0.2 65 = some oxyf)
    (h4 : fir_filter (detrend dxy) Fs 0.4 3 0.2 65 = some dxyf)
    (hdx : sumAbs dxyf ≠ 0) :
    SQI OD1 OD2 oxy dxy Fs =
      if Real.log (sumAbs oxyf / sumAbs dxyf) < thr_sumHbratio then some (NpFloat.real 1)
      else stage2and3 OD1f OD2f oxyf dxyf := by
  rw [SQI_filtered hpa h1 h2 h3 h4]
  by_cases hlog : Real.log (sumAbs oxyf / sumAbs dxyf) < thr_sumHbratio
  · rw [if_pos ⟨hdx, hlog⟩, if_pos hlog]
  · rw [if_neg (fun hc => hlog hc.2), if_neg hlog]

/-- Witness for C7: a concrete length-4 window at 10 Hz, where the
tap-count cap collapses the kernel to the identity and the filtered
signals are the detrended ones. -/
theorem C7_stage1_passB_witness :
    SQI [2, 1, 2, 1] [1, 2, 2, 1] [-1, 1, 1, -1] [-8, 8, 8, -8] 10 =
      if Real.log (sumAbs (detrend [-1, 1, 1, -1]) / sumAbs (detrend [-8, 8, 8, -8]))
          < thr_sumHbratio then some (NpFloat.real 1)
      else stage2and3 (detrend [2, 1, 2, 1]) (detrend [1, 2, 2, 1])
        (detrend [-1, 1, 1, -1]) (detrend [-8, 8, 8, -8]) := by
  have hpa : ¬ passAfail [(2 : ℝ), 1, 2, 1] [(1 : ℝ), 2, 2, 1] :=
    not_passA _ _
      (by intro v hv; fin_cases hv <;> norm_num [thrLow_intensity, thrUp_intensity])
      (by intro v hv; fin_cases hv <;> norm_num [thrLow_intensity, thrUp_intensity])
      (by norm_num [npVar, npMean]) (by norm_num [npVar, npMean])
  have hdx : sumAbs (detrend [(-8 : ℝ), 8, 8, -8]) ≠ 0 := by
    rw [detrend_m8]
    norm_num [sumAbs]
  exact C7_stage1_passB _ _ _ _ _ _ _ _ _ hpa
    (fir_filter_id4 _ (by simp [length_detrend]))
    (fir_filter_id4 _ (by simp [length_detrend]))
    (fir_filter_id4 _ (by simp [length_detrend]))
    (fir_filter_id4 _ (by simp [length_detrend]))
    hdx

/-- C8: Stage 2 forms the energy-normalised full autocorrelations of the
two filtered optical densities; when the metric `1/std` of their
difference strictly exceeds 40, `SQI` returns exactly 5 and terminates,
and otherwise it continues to the Stage-3 regression without assigning
a score.  (`npStd d ≠ 0` excludes the IEEE `1/0 = inf` degeneracy.) -/
theorem C8_stage2_gate (OD1 OD2 oxy dxy OD1f OD2f oxyf dxyf d : List ℝ) (Fs : ℝ)
    (hpa : ¬ passAfail OD1 OD2)
    (h1 : fir_filter (detrend OD1) Fs 0.4 3 0.2 65 = some OD1f)
    (h2 : fir_filter (detrend OD2) Fs 0.4 3 0.2 65 = some OD2f)
    (h3 : fir_filter (detrend oxy) Fs 0.4 3 0.2 65 = some oxyf)
    (h4 : fir_filter (detrend dxy) Fs 0.4 3 0.2 65 = some dxyf)
    (hb : ¬ (sumAbs dxyf ≠ 0 ∧ Real.log (sumAbs oxyf / sumAbs dxyf) < thr_sumHbratio))
    (hn : npSub (autocorrN OD1f) (autocorrN OD2f) = some d)
    (hd : npStd d ≠ 0) :
    SQI OD1 OD2 oxy dxy Fs =
      some (if thr_acorrDiffODs < 1 / npStd d then NpFloat.real 5
        else stage3score oxyf dxyf) := by
  rw [SQI_filtered hpa h1 h2 h3 h4, if_neg hb]
  unfold stage2and3
  rw [hn]
  show (if npStd d = 0 ∨ thr_acorrDiffODs < 1 / npStd d then some (NpFloat.real 5)
      else some (stage3score oxyf dxyf)) = _
  by_cases hg : thr_acorrDiffODs < 1 / npStd d
  · rw [if_pos (Or.inr hg), if_pos hg]
  · rw [if_neg (by rintro (hz | hz); exacts [hd hz, hg hz]), if_neg hg]

/-- Witness for C8 at a concrete length-4 window at 10 Hz (identity
kernel), with a nonzero autocorrelation difference. -/
theorem C8_stage2_gate_witness :
    SQI [1, 2, 1, 2] [1, 2, 2, 1] [-8, 8, 8, -8] [-1, 1, 1, -1] 10 =
      some (if thr_acorrDiffODs <
          1 / npStd (List.zipWith (fun u v => u - v)
            (autocorrN (detrend [1, 2, 1, 2])) (autocorrN (detrend [1, 2, 2, 1])))
        then NpFloat.real 5
        else stage3score (detrend [-8, 8, 8, -8]) (detrend [-1, 1, 1, -1])) := by
  have hpa : ¬ passAfail [(1 : ℝ), 2, 1, 2] [(1 : ℝ), 2, 2, 1] :=
    not_passA _ _
      (by intro v hv; fin_cases hv <;> norm_num [thrLow_intensity, thrUp_intensity])
      (by intro v hv; fin_cases hv <;> norm_num [thrLow_intensity, thrUp_intensity])
      (by norm_num [npVar, npMean]) (by norm_num [npVar, npMean])
  have hb : ¬ (sumAbs (detrend [(-1 : ℝ), 1, 1, -1]) ≠ 0 ∧
      Real.log (sumAbs (detrend [(-8 : ℝ), 8, 8, -8]) /
        sumAbs (detrend [(-1 : ℝ), 1, 1, -1])) < thr_sumHbratio) := by
    rintro ⟨-, hlog⟩
    rw [detrend_m8, detrend_m1] at hlog
    have e1 : sumAbs [(-8 : ℝ), 8, 8, -8] = 32 := by norm_num [sumAbs]
    have e2 : sumAbs [(-1 : ℝ), 1, 1, -1] = 4 := by norm_num [sumAbs]
    rw [e1, e2] at hlog
    exact log_not_lt_thr _ (by norm_num) hlog
  have hn : npSub (autocorrN (detrend [(1 : ℝ), 2, 1, 2]))
      (autocorrN (detrend [(1 : ℝ), 2, 2, 1])) =
      some (List.zipWith (fun u v => u - v) (autocorrN (detrend [(1 : ℝ), 2, 1, 2]))
        (autocorrN (detrend [(1 : ℝ), 2, 2, 1]))) :=
    npSub_of_length_eq _ _ (by simp [autocorrN_length, length_detrend])
  have hd : npStd (List.zipWith (fun u v => u - v) (autocorrN (detrend [(1 : ℝ), 2, 1, 2]))
      (autocorrN (detrend [(1 : ℝ), 2, 2, 1]))) ≠ 0 := by
    rw [detrend_1212, detrend_1221, autocorr_a, autocorr_b, zip_diff_eval]
    exact npStd_ne_zero _ (by rw [npVar_diff_eval]; norm_num)
  exact C8_stage2_gate _ _ _ _ _ _ _ _ _ _ hpa
    (fir_filter_id4 _ (by simp [length_detrend]))
    (fir_filter_id4 _ (by simp [length_detrend]))
    (fir_filter_id4 _ (by simp [length_detrend]))
    (fir_filter_id4 _ (by simp [length_detrend]))
    hb hn hd

/-- Counterexample to C9: a valid input that reaches Stage 3 (passes
Pass A, Pass B and the Stage-2 gate) on which the returned value is the
IEEE `nan` — both hemoglobin channels filter to the zero vector, so
`logStdHb = log(0/0) = nan` — and `nan` is not the claimed clamped
regression value (it is not a real number at all). -/
theorem C9_counterexample :
    SQI [1, 2, 1, 2] [1, 2, 2, 1] [0, 0, 0, 0] [0, 0, 0, 0] 10 = some NpFloat.nan ∧
      NpFloat.nan ≠ NpFloat.real (min 5 (max 1 (Real.log (npStd (detrend [0, 0, 0, 0]) /
        npStd (detrend [0, 0, 0, 0])) * slope + intercept))) := by
  constructor
  · have hpa : ¬ passAfail [(1 : ℝ), 2, 1, 2] [(1 : ℝ), 2, 2, 1] :=
      not_passA _ _
        (by intro v hv; fin_cases hv <;> norm_num [thrLow_intensity, thrUp_intensity])
        (by intro v hv; fin_cases hv <;> norm_num [thrLow_intensity, thrUp_intensity])
        (by norm_num [npVar, npMean]) (by norm_num [npVar, npMean])
    rw [SQI_filtered hpa
      (fir_filter_id4 _ (by simp [length_detrend]))
      (fir_filter_id4 _ (by simp [length_detrend]))
      (fir_filter_id4 _ (by simp [length_detrend]))
      (fir_filter_id4 _ (by simp [length_detrend]))]
    rw [if_neg (show ¬ (sumAbs (detrend [(0 : ℝ), 0, 0, 0]) ≠ 0 ∧ _) from
      fun hc => hc.1 (by rw [detrend_zero4]; exact sumAbs_zero4))]
    have hgate : ¬ (npStd (List.zipWith (fun u v => u - v)
          (autocorrN (detrend [(1 : ℝ), 2, 1, 2])) (autocorrN (detrend [(1 : ℝ), 2, 2, 1]))) = 0 ∨
        thr_acorrDiffODs < 1 / npStd (List.zipWith (fun u v => u - v)
          (autocorrN (detrend [(1 : ℝ), 2, 1, 2])) (autocorrN (detrend [(1 : ℝ), 2, 2, 1])))) := by
      rw [detrend_1212, detrend_1221, autocorr_a, autocorr_b, zip_diff_eval]
      exact gate_off_diff
    unfold stage2and3
    rw [npSub_of_length_eq _ _ (by simp [autocorrN_length, length_detrend])]
    show (if npStd _ = 0 ∨ thr_acorrDiffODs < 1 / npStd _ then some (NpFloat.real 5)
        else some (stage3score (detrend [(0 : ℝ), 0, 0, 0]) (detrend [(0 : ℝ), 0, 0, 0])))
      = some NpFloat.nan
    rw [if_neg hgate,
      stage3score_nan _ _ (by rw [detrend_zero4]; exact npStd_zero4)
        (by rw [detrend_zero4]; exact npStd_zero4)]
  · intro h
    exact NpFloat.noConfusion h

/-- C9 as amended: on every input that reaches Stage 3 whose filtered
deoxy channel has nonzero standard deviation, the returned score is the
regression value `log(std(oxy_f)/std(dxy_f)) * slope + intercept`
clamped into `[1, 5]` (values above 5 return exactly 5 and values below
1 exactly 1).  When `std(dxy_f) = 0` the program instead returns
exactly 5 (via `log(inf) = inf`) if `std(oxy_f) > 0`, and the unclamped
`nan` if both are 0. -/
theorem C9_stage3_regression (OD1 OD2 oxy dxy OD1f OD2f oxyf dxyf d : List ℝ) (Fs : ℝ)
    (hpa : ¬ passAfail OD1 OD2)
    (h1 : fir_filter (detrend OD1) Fs 0.4 3 0.2 65 = some OD1f)
    (h2 : fir_filter (detrend OD2) Fs 0.4 3 0.2 65 = some OD2f)
    (h3 : fir_filter (detrend oxy) Fs 0.4 3 0.2 65 = some oxyf)
    (h4 : fir_filter (detrend dxy) Fs 0.4 3 0.2 65 = some dxyf)
    (hb : ¬ (sumAbs dxyf ≠ 0 ∧ Real.log (sumAbs oxyf / sumAbs dxyf) < thr_sumHbratio))
    (hn : npSub (autocorrN OD1f) (autocorrN OD2f) = some d)
    (hs2 : ¬ (npStd d = 0 ∨ thr_acorrDiffODs < 1 / npStd d))
    (hsd : npStd dxyf ≠ 0) :
    SQI OD1 OD2 oxy dxy Fs =
      some (NpFloat.real (min 5 (max 1
        (Real.log (npStd oxyf / npStd dxyf) * slope + intercept)))) := by
  rw [SQI_filtered hpa h1 h2 h3 h4, if_neg hb]
  unfold stage2and3
  rw [hn]
  show (if npStd d = 0 ∨ thr_acorrDiffODs < 1 / npStd d then some (NpFloat.real 5)
      else some (stage3score oxyf dxyf)) = _
  rw [if_neg hs2, stage3score_of_ne_zero _ _ hsd]

/-- Witness for C9 as amended at a concrete length-4 window at 10 Hz
(identity kernel) that passes both gates with a nonzero filtered deoxy
channel. -/
theorem C9_stage3_regression_witness :
    SQI [2, 1, 2, 1] [1, 2, 2, 1] [-16, 16, 16, -16] [-2, 2, 2, -2] 10 =
      some (NpFloat.real (min 5 (max 1 (Real.log (npStd (detrend [-16, 16, 16, -16]) /
        npStd (detrend [-2, 2, 2, -2])) * slope + intercept)))) := by
  have hpa : ¬ passAfail [(2 : ℝ), 1, 2, 1] [(1 : ℝ), 2, 2, 1] :=
    not_passA _ _
      (by intro v hv; fin_cases hv <;> norm_num [thrLow_intensity, thrUp_intensity])
      (by intro v hv; fin_cases hv <;> norm_num [thrLow_intensity, thrUp_intensity])
      (by norm_num [npVar, npMean]) (by norm_num [npVar, npMean])
  have hb : ¬ (sumAbs (detrend [(-2 : ℝ), 2, 2, -2]) ≠ 0 ∧
      Real.log (sumAbs (detrend [(-16 : ℝ), 16, 16, -16]) /
        sumAbs (detrend [(-2 : ℝ), 2, 2, -2])) < thr_sumHbratio) := by
    rintro ⟨-, hlog⟩
    rw [detrend_m16, detrend_m2] at hlog
    have e1 : sumAbs [(-16 : ℝ), 16, 16, -16] = 64 := by norm_num [sumAbs]
    have e2 : sumAbs [(-2 : ℝ), 2, 2, -2] = 8 := by norm_num [sumAbs]
    rw [e1, e2] at hlog
    exact log_not_lt_thr _ (by norm_num) hlog
  have hn : npSub (autocorrN (detrend [(2 : ℝ), 1, 2, 1]))
      (autocorrN (detrend [(1 : ℝ), 2, 2, 1])) =
      some (List.zipWith (fun u v => u - v) (autocorrN (detrend [(2 : ℝ), 1, 2, 1]))
        (autocorrN (detrend [(1 : ℝ), 2, 2, 1]))) :=
    npSub_of_length_eq _ _ (by simp [autocorrN_length, length_detrend])
  have hs2 : ¬ (npStd (List.zipWith (fun u v => u - v)
        (autocorrN (detrend [(2 : ℝ), 1, 2, 1])) (autocorrN (detrend [(1 : ℝ), 2, 2, 1]))) = 0 ∨
      thr_acorrDiffODs < 1 / npStd (List.zipWith (fun u v => u - v)
        (autocorrN (detrend [(2 : ℝ), 1, 2, 1])) (autocorrN (detrend [(1 : ℝ), 2, 2, 1])))) := by
    rw [detrend_2121, detrend_1221, autocorr_a2, autocorr_b, zip_diff_eval]
    exact gate_off_diff
  have hsd : npStd (detrend [(-2 : ℝ), 2, 2, -2]) ≠ 0 := by
    rw [detrend_m2]
    exact npStd_ne_zero _ (by norm_num [npVar, npMean])
  exact C9_stage3_regression _ _ _ _ _ _ _ _ _ _ hpa
    (fir_filter_id4 _ (by simp [length_detrend]))
    (fir_filter_id4 _ (by simp [length_detrend]))
    (fir_filter_id4 _ (by simp [length_detrend]))
    (fir_filter_id4 _ (by simp [length_detrend]))
    hb hn hs2 hsd

end SignalQualityIndex
